import Mathlib

/-!
Shallow embedding of the log4rs file-configuration core
(`src/file/mod.rs` and `src/filter/threshold/mod.rs`): the pluggable
deserializer registry, the configuration assembly pipeline
(`Config::parse`), and the threshold filter.  Components of the crate
that the two source files reference but whose own sources are absent
(the `raw` schema module, the `config` builder module, the `filter`
module's `Response` type) are modelled from the specification and are
marked as such in their doc comments.
-/

set_option autoImplicit false

namespace Log4rs

/-- The `log` crate's `LogLevel` enum (discriminants `Error = 1` … `Trace = 5`). -/
inductive LogLevel where
  | error
  | warn
  | info
  | debug
  | trace
  deriving DecidableEq, Repr

/-- Numeric value of a `LogLevel`, matching the Rust discriminants. -/
def LogLevel.toNat : LogLevel → Nat
  | .error => 1
  | .warn => 2
  | .info => 3
  | .debug => 4
  | .trace => 5

/-- The `log` crate's `LogLevelFilter` enum (discriminants `Off = 0` … `Trace = 5`). -/
inductive LogLevelFilter where
  | off
  | error
  | warn
  | info
  | debug
  | trace
  deriving DecidableEq, Repr

/-- Numeric value of a `LogLevelFilter`, matching the Rust discriminants. -/
def LogLevelFilter.toNat : LogLevelFilter → Nat
  | .off => 0
  | .error => 1
  | .warn => 2
  | .info => 3
  | .debug => 4
  | .trace => 5

/-- `LogLevel > LogLevelFilter` in the `log` crate compares the numeric
discriminants (`*self as usize > *other as usize`). -/
def LogLevel.gtFilter (l : LogLevel) (f : LogLevelFilter) : Bool :=
  f.toNat < l.toNat

/-- A log record; only the `level` accessor is used by the threshold filter. -/
structure LogRecord where
  level : LogLevel
  deriving DecidableEq, Repr

/-- Modelled from the spec: the filter family's response enum, referenced by
`src/filter/threshold/mod.rs` as `Response::Reject` / `Response::Neutral`
(its defining module `filter/mod.rs` is not among the given sources; the spec
describes filters as evaluated short-circuit, first-reject-wins). -/
inductive Response where
  | accept
  | neutral
  | reject
  deriving DecidableEq, Repr

/-- `ThresholdFilter`: a filter that rejects all events at a level below a
provided threshold (`src/filter/threshold/mod.rs`). -/
structure ThresholdFilter where
  level : LogLevelFilter
  deriving DecidableEq, Repr

/-- `ThresholdFilter::new`. -/
def ThresholdFilter.new (level : LogLevelFilter) : ThresholdFilter :=
  { level := level }

/-- `impl Filter for ThresholdFilter`: `if record.level() > self.level
{ Reject } else { Neutral }`. -/
def ThresholdFilter.filter (f : ThresholdFilter) (record : LogRecord) : Response :=
  if record.level.gtFilter f.level then Response.reject else Response.neutral

/-- The generic configuration value tree (`serde_value::Value`), restricted to
the constructors the configuration format needs. -/
inductive Value where
  | unit
  | bool (b : Bool)
  | int (n : Int)
  | string (s : String)
  | seq (elems : List Value)
  | map (entries : List (String × Value))

/-- The typed side of a registered deserializer (`trait Deserialize` in
`src/file/mod.rs`): a concrete configuration type `Cfg`, the structural
conversion of a generic value into it (`serde_value`'s `deserialize_into`,
an external collaborator, hence a function field), and the build operation
producing a component of the family `τ` or an error. -/
structure Deserialize (τ : Type) where
  Cfg : Type
  deserialize_into : Value → Except String Cfg
  build : Cfg → Except String τ

/-- `impl ErasedDeserialize for DeserializeEraser<T>`: convert the generic
value into the typed configuration (`try!`, so a conversion failure is
returned without invoking the build function), then delegate to the typed
deserializer. -/
def DeserializeEraser.deserialize {τ : Type} (d : Deserialize τ) (config : Value) :
    Except String τ :=
  match d.deserialize_into config with
  | Except.error e => Except.error e
  | Except.ok cfg => d.build cfg

/-- One family's sub-table of the registry: the `HashMap<String, Arc<ErasedDeserialize>>`
stored under the family's type key, as an association list from kind strings
to erased factories. -/
def FamilyMap (τ : Type) : Type :=
  List (String × (Value → Except String τ))

/-- `HashMap::get` on a family sub-table: the value of the first (only)
binding of the kind. -/
def FamilyMap.lookup {τ : Type} (m : FamilyMap τ) (kind : String) :
    Option (Value → Except String τ) :=
  match m with
  | [] => none
  | (k, f) :: rest => if k = kind then some f else FamilyMap.lookup rest kind

/-- `Deserializers::insert` restricted to one family's sub-table:
`HashMap::insert` replaces any existing binding of `kind` with the erased
wrapper of the new typed deserializer. -/
def FamilyMap.insert {τ : Type} (m : FamilyMap τ) (kind : String) (d : Deserialize τ) :
    FamilyMap τ :=
  (kind, DeserializeEraser.deserialize d) :: m.filter (fun p => p.1 ≠ kind)

/-- `Deserializers::deserialize` for a family whose `Deserializable::name()`
is `familyName`: look up the kind in the family's sub-table; if absent, fail
with the fixed message; if present, invoke the erased factory. -/
def FamilyMap.deserialize {τ : Type} (familyName : String) (m : FamilyMap τ)
    (kind : String) (config : Value) : Except String τ :=
  match FamilyMap.lookup m kind with
  | some b => b config
  | none =>
      Except.error ("no " ++ familyName ++ " deserializer for kind `" ++ kind
        ++ "` registered")

/-- The full registry (`struct Deserializers`): one sub-table per component
family.  The source keys the outer `ShareCloneMap` by the family's trait
type; the two families the given sources exercise are appenders (objects of
type `A`) and filters (objects of type `F`). -/
structure Deserializers (A F : Type) where
  appenders : FamilyMap A
  filters : FamilyMap F

/-- `Deserializers::new`: no mappings. -/
def Deserializers.new {A F : Type} : Deserializers A F :=
  { appenders := [], filters := [] }

/-- `Deserializers::deserialize::<Append>`; the `Append` family's
`Deserializable::name()` is `"appender"`. -/
def Deserializers.deserializeAppender {A F : Type} (ds : Deserializers A F)
    (kind : String) (config : Value) : Except String A :=
  FamilyMap.deserialize "appender" ds.appenders kind config

/-- `Deserializers::deserialize::<Filter>`; the `Filter` family's
`Deserializable::name()` is `"filter"`. -/
def Deserializers.deserializeFilter {A F : Type} (ds : Deserializers A F)
    (kind : String) (config : Value) : Except String F :=
  FamilyMap.deserialize "filter" ds.filters kind config

/-- Modelled from the spec: the raw filter descriptor (`FilterConfig` from the
crate's `filter` module, not among the given sources): a kind string plus the
remaining generic configuration. -/
structure FilterConfig where
  kind : String
  config : Value

/-- Modelled from the spec: `raw::Appender` (module `file/raw.rs`, not among
the given sources): kind, remaining generic configuration, attached filters. -/
structure RawAppender where
  kind : String
  config : Value
  filters : List FilterConfig

/-- Modelled from the spec: `raw::Root` (module `file/raw.rs`, not among the
given sources): level and appender-name list. -/
structure RawRoot where
  level : LogLevelFilter
  appenders : List String

/-- Modelled from the spec: `raw::Logger` (module `file/raw.rs`, not among
the given sources): optional level, appender-name list, optional additivity
flag. -/
structure RawLogger where
  level : Option LogLevelFilter
  appenders : List String
  additive : Option Bool

/-- Modelled from the spec: `raw::Config` (module `file/raw.rs`, not among
the given sources): the raw config tree, with maps as association lists
(iteration order of the underlying hash maps is arbitrary).  The refresh
rate is a duration, modelled in nanoseconds. -/
structure RawConfig where
  refresh_rate : Option Nat
  root : Option RawRoot
  appenders : List (String × RawAppender)
  loggers : List (String × RawLogger)

/-- Modelled from the spec: `config::Root` — the assembled root logger. -/
structure ConfigRoot where
  level : LogLevelFilter
  appenders : List String
  deriving DecidableEq, Repr

/-- Modelled from the spec: `config::Root::builder()`. -/
structure RootBuilder where
  appenderNames : List String
  deriving DecidableEq, Repr

/-- `config::Root::builder()`: starts with no appenders. -/
def Root.builder : RootBuilder :=
  { appenderNames := [] }

/-- `RootBuilder::appenders`: sets the appender-name list. -/
def RootBuilder.appenders (b : RootBuilder) (names : List String) : RootBuilder :=
  { b with appenderNames := names }

/-- `RootBuilder::build`: finishes the root with the given level. -/
def RootBuilder.build (b : RootBuilder) (level : LogLevelFilter) : ConfigRoot :=
  { level := level, appenders := b.appenderNames }

/-- Modelled from the spec: `config::Appender` — a named appender instance
with its attached filters. -/
structure ConfigAppender (A F : Type) where
  name : String
  appender : A
  filters : List F

/-- Modelled from the spec: `config::Appender::builder()` — accumulates
filters in the order `.filter` is called. -/
structure AppenderBuilder (F : Type) where
  filters : List F

/-- `config::Appender::builder()`: starts with no filters. -/
def Appender.builder {F : Type} : AppenderBuilder F :=
  { filters := [] }

/-- `AppenderBuilder::filter`: appends one filter. -/
def AppenderBuilder.filter {F : Type} (b : AppenderBuilder F) (f : F) :
    AppenderBuilder F :=
  { b with filters := b.filters ++ [f] }

/-- `AppenderBuilder::build`: finishes the appender. -/
def AppenderBuilder.build {A F : Type} (b : AppenderBuilder F) (name : String)
    (appender : A) : ConfigAppender A F :=
  { name := name, appender := appender, filters := b.filters }

/-- Modelled from the spec: `config::Logger` — a logger entry with its own
appender-name list, optional level (absent = inherit, resolved outside this
core) and additivity flag. -/
structure ConfigLogger where
  name : String
  level : Option LogLevelFilter
  appenders : List String
  additive : Bool
  deriving DecidableEq, Repr

/-- Modelled from the spec: `config::Logger::builder()` — additivity defaults
to `true` unless `.additive` is called. -/
structure LoggerBuilder where
  appenderNames : List String
  additiveFlag : Bool
  deriving DecidableEq, Repr

/-- `config::Logger::builder()`. -/
def Logger.builder : LoggerBuilder :=
  { appenderNames := [], additiveFlag := true }

/-- `LoggerBuilder::appenders`. -/
def LoggerBuilder.appenders (b : LoggerBuilder) (names : List String) :
    LoggerBuilder :=
  { b with appenderNames := names }

/-- `LoggerBuilder::additive`. -/
def LoggerBuilder.additive (b : LoggerBuilder) (flag : Bool) : LoggerBuilder :=
  { b with additiveFlag := flag }

/-- `LoggerBuilder::build`. -/
def LoggerBuilder.build (b : LoggerBuilder) (name : String)
    (level : Option LogLevelFilter) : ConfigLogger :=
  { name := name, level := level, appenders := b.appenderNames,
    additive := b.additiveFlag }

/-- Modelled from the spec: `config::Error` — structural validation failures
of the lossy build; the spec names duplicate appender/logger names as the
rejected invariants (referenced appender names are deliberately not checked
at this layer). -/
inductive ConfigError where
  | DuplicateAppenderName (name : String)
  | DuplicateLoggerName (name : String)
  deriving DecidableEq, Repr

/-- `file::Error`: either a component deserialization failure (wrapping the
underlying cause, carried here as its message) or a config-validation
failure. -/
inductive FileError where
  | Deserialization (msg : String)
  | Config (err : ConfigError)
  deriving DecidableEq, Repr

/-- Modelled from the spec: the assembled runtime configuration
(`config::Config`). -/
structure RuntimeConfig (A F : Type) where
  root : ConfigRoot
  appenders : List (ConfigAppender A F)
  loggers : List ConfigLogger

/-- Modelled from the spec: `config::Config::builder()` — accumulates
appenders and loggers in call order. -/
structure ConfigBuilder (A F : Type) where
  appenders : List (ConfigAppender A F)
  loggers : List ConfigLogger

/-- `config::Config::builder()`. -/
def Config.builder {A F : Type} : ConfigBuilder A F :=
  { appenders := [], loggers := [] }

/-- `ConfigBuilder::appender`: appends one assembled appender. -/
def ConfigBuilder.appender {A F : Type} (b : ConfigBuilder A F)
    (a : ConfigAppender A F) : ConfigBuilder A F :=
  { b with appenders := b.appenders ++ [a] }

/-- `ConfigBuilder::logger`: appends one logger entry. -/
def ConfigBuilder.logger {A F : Type} (b : ConfigBuilder A F)
    (l : ConfigLogger) : ConfigBuilder A F :=
  { b with loggers := b.loggers ++ [l] }

/-- Modelled from the spec: the appender half of the lossy build — keep the
first appender of each name, record a `DuplicateAppenderName` error for every
later one. -/
def dedupAppenders {A F : Type} (seen : List String) :
    List (ConfigAppender A F) → List (ConfigAppender A F) × List ConfigError
  | [] => ([], [])
  | a :: rest =>
      if a.name ∈ seen then
        let (keep, errs) := dedupAppenders seen rest
        (keep, ConfigError.DuplicateAppenderName a.name :: errs)
      else
        let (keep, errs) := dedupAppenders (a.name :: seen) rest
        (a :: keep, errs)

/-- Modelled from the spec: the logger half of the lossy build — keep the
first logger of each name, record a `DuplicateLoggerName` error for every
later one. -/
def dedupLoggers (seen : List String) :
    List ConfigLogger → List ConfigLogger × List ConfigError
  | [] => ([], [])
  | l :: rest =>
      if l.name ∈ seen then
        let (keep, errs) := dedupLoggers seen rest
        (keep, ConfigError.DuplicateLoggerName l.name :: errs)
      else
        let (keep, errs) := dedupLoggers (l.name :: seen) rest
        (l :: keep, errs)

/-- Modelled from the spec: `ConfigBuilder::build_lossy` — a validating build
that always produces a configuration, dropping invariant-violating entries
(duplicate names) and returning the batch of non-fatal validation errors
alongside it. -/
def ConfigBuilder.build_lossy {A F : Type} (b : ConfigBuilder A F)
    (root : ConfigRoot) : RuntimeConfig A F × List ConfigError :=
  let (appenders, appErrs) := dedupAppenders [] b.appenders
  let (loggers, logErrs) := dedupLoggers [] b.loggers
  ({ root := root, appenders := appenders, loggers := loggers },
    appErrs ++ logErrs)

/-- `file::Config`: the result bundle of `Config::parse`. -/
structure FileConfig (A F : Type) where
  refresh_rate : Option Nat
  config : RuntimeConfig A F
  errors : List FileError

/-- The filter loop inside `Config::parse` (lines 412–417 of
`src/file/mod.rs`): for each attached filter in listed order, deserialize it;
on success add it to the appender builder, on failure push a
`Deserialization` error. -/
def processFilters {A F : Type} (ds : Deserializers A F)
    (state : AppenderBuilder F × List FileError) (filters : List FilterConfig) :
    AppenderBuilder F × List FileError :=
  filters.foldl
    (fun acc fc =>
      match ds.deserializeFilter fc.kind fc.config with
      | Except.ok filt => (acc.1.filter filt, acc.2)
      | Except.error err => (acc.1, acc.2 ++ [FileError.Deserialization err]))
    state

/-- The appender loop inside `Config::parse` (lines 408–422 of
`src/file/mod.rs`): for each declared appender, deserialize its kind; on
success run the filter loop and register the built appender, on failure push
a `Deserialization` error and skip it. -/
def processAppenders {A F : Type} (ds : Deserializers A F)
    (state : ConfigBuilder A F × List FileError)
    (raw_appenders : List (String × RawAppender)) :
    ConfigBuilder A F × List FileError :=
  raw_appenders.foldl
    (fun acc entry =>
      match ds.deserializeAppender entry.2.kind entry.2.config with
      | Except.ok appender_obj =>
          let (builder, errors) :=
            processFilters ds (Appender.builder, acc.2) entry.2.filters
          (acc.1.appender (builder.build entry.1 appender_obj), errors)
      | Except.error err => (acc.1, acc.2 ++ [FileError.Deserialization err]))
    state

/-- The logger loop inside `Config::parse` (lines 424–431 of
`src/file/mod.rs`): build each logger entry from its raw descriptor,
applying `.additive` only when the flag is present. -/
def processLoggers {A F : Type} (cb : ConfigBuilder A F)
    (raw_loggers : List (String × RawLogger)) : ConfigBuilder A F :=
  raw_loggers.foldl
    (fun b entry =>
      let lb := (Logger.builder).appenders entry.2.appenders
      let lb :=
        match entry.2.additive with
        | some a => lb.additive a
        | none => lb
      b.logger (lb.build entry.1 entry.2.level))
    cb

/-- The body of `Config::parse` after the raw tree has been obtained
(lines 391–446 of `src/file/mod.rs`): build the root (defaulting to
`Debug` with no appenders when absent), run the appender and logger loops,
hand the result to the lossy build, and bundle everything with the
accumulated error list. -/
def FileConfig.assemble {A F : Type} (ds : Deserializers A F)
    (raw : RawConfig) : FileConfig A F :=
  let root :=
    match raw.root with
    | some raw_root =>
        ((Root.builder).appenders raw_root.appenders).build raw_root.level
    | none => (Root.builder).build LogLevelFilter.debug
  let (cb, errors) := processAppenders ds (Config.builder, []) raw.appenders
  let cb := processLoggers cb raw.loggers
  let (cfg, config_errors) := cb.build_lossy root
  { refresh_rate := raw.refresh_rate, config := cfg,
    errors := errors ++ config_errors.map FileError.Config }

/-- The configuration file format (`enum Format`). -/
inductive Format where
  | yaml
  | json
  | toml
  deriving DecidableEq, Repr

/-- The external format parsers (`serde_yaml::from_str`,
`serde_json::from_str`, `toml::Parser`/`toml::Decoder`), collaborators
outside this core, as function parameters.  `T` is the TOML table type;
`tomlParse` returns the optional parsed table together with the parser's
accumulated error vector. -/
structure FormatParsers (T : Type) where
  yaml : String → Except String RawConfig
  json : String → Except String RawConfig
  tomlParse : String → Option T × List String
  tomlDecode : T → Except String RawConfig

/-- The internal `fn parse(format, config)` (lines 465–483 of
`src/file/mod.rs`).  The TOML branch, when the parser yields no table, pops
the last entry of the parser's error vector and unwraps it; `none` models
the panic of `.unwrap()` on an empty vector. -/
def parseRawTree {T : Type} (fp : FormatParsers T) (format : Format)
    (config : String) : Option (Except String RawConfig) :=
  match format with
  | Format.yaml => some (fp.yaml config)
  | Format.json => some (fp.json config)
  | Format.toml =>
      match (fp.tomlParse config).1 with
      | some table => some (fp.tomlDecode table)
      | none =>
          match (fp.tomlParse config).2.getLast? with
          | some e => some (Except.error e)
          | none => none

/-- `Config::parse` (lines 383–447 of `src/file/mod.rs`): run the
format-specific parser (`try!` — a parse failure aborts the call), then
assemble; `none` models the panic surfaced from the TOML branch. -/
def FileConfig.parse {A F T : Type} (config : String) (format : Format)
    (deserializers : Deserializers A F) (fp : FormatParsers T) :
    Option (Except String (FileConfig A F)) :=
  match parseRawTree fp format config with
  | none => none
  | some (Except.error e) => some (Except.error e)
  | some (Except.ok raw) =>
      some (Except.ok (FileConfig.assemble deserializers raw))

/-- Modelled from the spec: `ThresholdFilterConfig` (generated in the
`serde.rs` include of `src/filter/threshold/mod.rs`, not among the given
sources): the typed configuration with the required `level` field. -/
structure ThresholdFilterConfig where
  level : LogLevelFilter
  deriving DecidableEq, Repr

/-- `ThresholdFilterDeserializer` (unit struct). -/
structure ThresholdFilterDeserializer where
  deriving DecidableEq, Repr

/-- `impl Deserialize for ThresholdFilterDeserializer`: always succeeds,
building a `ThresholdFilter` at the configured level (the registry argument
is unused). -/
def ThresholdFilterDeserializer.deserialize {A F : Type}
    (_ : ThresholdFilterDeserializer) (config : ThresholdFilterConfig)
    (_ : Deserializers A F) : Except String ThresholdFilter :=
  Except.ok (ThresholdFilter.new config.level)

/-! ### Characterizations of the assembly loops -/

/-- The filter a filter descriptor contributes to its appender: the
successfully built instance, or nothing. -/
def filterOk {A F : Type} (ds : Deserializers A F) (fc : FilterConfig) :
    Option F :=
  (ds.deserializeFilter fc.kind fc.config).toOption

/-- The errors a filter descriptor contributes. -/
def filterErrs {A F : Type} (ds : Deserializers A F) (fc : FilterConfig) :
    List FileError :=
  match ds.deserializeFilter fc.kind fc.config with
  | Except.ok _ => []
  | Except.error e => [FileError.Deserialization e]

/-- The assembled appender a raw appender entry contributes: the built
instance with its successfully built filters in listed order, or nothing
when its kind fails to deserialize. -/
def appenderOk {A F : Type} (ds : Deserializers A F)
    (entry : String × RawAppender) : Option (ConfigAppender A F) :=
  match ds.deserializeAppender entry.2.kind entry.2.config with
  | Except.ok obj =>
      some { name := entry.1, appender := obj,
             filters := entry.2.filters.filterMap (filterOk ds) }
  | Except.error _ => none

/-- The errors a raw appender entry contributes: its filters' errors when it
builds, a single `Deserialization` error when it does not. -/
def appenderErrs {A F : Type} (ds : Deserializers A F)
    (entry : String × RawAppender) : List FileError :=
  match ds.deserializeAppender entry.2.kind entry.2.config with
  | Except.ok _ => entry.2.filters.flatMap (filterErrs ds)
  | Except.error e => [FileError.Deserialization e]

/-- The logger entry a raw logger descriptor is built into: name, level and
appenders as given, additivity defaulted to `true` when absent. -/
def buildLoggerEntry (entry : String × RawLogger) : ConfigLogger :=
  { name := entry.1, level := entry.2.level, appenders := entry.2.appenders,
    additive := entry.2.additive.getD true }

theorem processFilters_eq {A F : Type} (ds : Deserializers A F)
    (b : AppenderBuilder F) (errs : List FileError) (fcs : List FilterConfig) :
    processFilters ds (b, errs) fcs =
      ({ filters := b.filters ++ fcs.filterMap (filterOk ds) },
        errs ++ fcs.flatMap (filterErrs ds)) := by
  induction fcs generalizing b errs with
  | nil => simp [processFilters]
  | cons fc rest ih =>
      cases h : ds.deserializeFilter fc.kind fc.config with
      | ok filt =>
          have step : processFilters ds (b, errs) (fc :: rest)
              = processFilters ds (b.filter filt, errs) rest := by
            simp [processFilters, List.foldl_cons, h]
          rw [step, ih]
          simp [AppenderBuilder.filter, List.filterMap_cons, List.flatMap_cons,
            filterOk, filterErrs, h, Except.toOption]
      | error e =>
          have step : processFilters ds (b, errs) (fc :: rest)
              = processFilters ds (b, errs ++ [FileError.Deserialization e]) rest := by
            simp [processFilters, List.foldl_cons, h]
          rw [step, ih]
          simp [List.filterMap_cons, List.flatMap_cons, filterOk, filterErrs, h,
            Except.toOption]

theorem processAppenders_eq {A F : Type} (ds : Deserializers A F)
    (cb : ConfigBuilder A F) (errs : List FileError)
    (ras : List (String × RawAppender)) :
    processAppenders ds (cb, errs) ras =
      ({ cb with appenders := cb.appenders ++ ras.filterMap (appenderOk ds) },
        errs ++ ras.flatMap (appenderErrs ds)) := by
  induction ras generalizing cb errs with
  | nil => simp [processAppenders]
  | cons entry rest ih =>
      cases h : ds.deserializeAppender entry.2.kind entry.2.config with
      | ok obj =>
          have step : processAppenders ds (cb, errs) (entry :: rest)
              = processAppenders ds
                  (cb.appender (AppenderBuilder.build
                      { filters := List.filterMap (filterOk ds) entry.2.filters }
                      entry.1 obj),
                    errs ++ entry.2.filters.flatMap (filterErrs ds)) rest := by
            have hfe :=
              processFilters_eq ds ({ filters := [] } : AppenderBuilder F)
                errs entry.2.filters
            simp [processAppenders, List.foldl_cons, h, Appender.builder, hfe]
          rw [step, ih]
          simp [appenderOk, appenderErrs, h, ConfigBuilder.appender,
            AppenderBuilder.build, List.filterMap_cons, List.flatMap_cons]
      | error e =>
          have step : processAppenders ds (cb, errs) (entry :: rest)
              = processAppenders ds
                  (cb, errs ++ [FileError.Deserialization e]) rest := by
            simp [processAppenders, List.foldl_cons, h]
          rw [step, ih]
          simp [appenderOk, appenderErrs, h, List.filterMap_cons,
            List.flatMap_cons]

theorem processLoggers_eq {A F : Type} (cb : ConfigBuilder A F)
    (rls : List (String × RawLogger)) :
    processLoggers cb rls =
      { cb with loggers := cb.loggers ++ rls.map buildLoggerEntry } := by
  induction rls generalizing cb with
  | nil => simp [processLoggers]
  | cons entry rest ih =>
      have step : processLoggers cb (entry :: rest)
          = processLoggers (cb.logger (buildLoggerEntry entry)) rest := by
        cases h : entry.2.additive <;>
          simp [processLoggers, List.foldl_cons, h, Logger.builder,
            LoggerBuilder.appenders, LoggerBuilder.additive, LoggerBuilder.build,
            buildLoggerEntry]
      rw [step, ih]
      simp [ConfigBuilder.logger]

/-- The assembled root: the raw root's level and appenders when present,
otherwise the `Debug` level with no appenders. -/
def rootOf : Option RawRoot → ConfigRoot
  | some r => { level := r.level, appenders := r.appenders }
  | none => { level := LogLevelFilter.debug, appenders := [] }

theorem assemble_eq {A F : Type} (ds : Deserializers A F) (raw : RawConfig) :
    FileConfig.assemble ds raw =
      { refresh_rate := raw.refresh_rate,
        config :=
          { root := rootOf raw.root,
            appenders :=
              (dedupAppenders [] (raw.appenders.filterMap (appenderOk ds))).1,
            loggers :=
              (dedupLoggers [] (raw.loggers.map buildLoggerEntry)).1 },
        errors := raw.appenders.flatMap (appenderErrs ds)
          ++ ((dedupAppenders [] (raw.appenders.filterMap (appenderOk ds))).2
              ++ (dedupLoggers [] (raw.loggers.map buildLoggerEntry)).2).map
                FileError.Config } := by
  cases hr : raw.root with
  | some r =>
      simp [FileConfig.assemble, hr, rootOf, Root.builder, RootBuilder.appenders,
        RootBuilder.build, processAppenders_eq, processLoggers_eq,
        ConfigBuilder.build_lossy, Config.builder]
  | none =>
      simp [FileConfig.assemble, hr, rootOf, Root.builder, RootBuilder.appenders,
        RootBuilder.build, processAppenders_eq, processLoggers_eq,
        ConfigBuilder.build_lossy, Config.builder]

theorem dedupAppenders_nodup {A F : Type} (seen : List String)
    (l : List (ConfigAppender A F)) (hseen : ∀ a ∈ l, a.name ∉ seen)
    (hnodup : (l.map ConfigAppender.name).Nodup) :
    dedupAppenders seen l = (l, []) := by
  induction l generalizing seen with
  | nil => rfl
  | cons a rest ih =>
      have ha : a.name ∉ seen := hseen a (by simp)
      have hn : a.name ∉ rest.map ConfigAppender.name ∧
          (rest.map ConfigAppender.name).Nodup := by
        simpa [List.nodup_cons] using hnodup
      have hrest : dedupAppenders (a.name :: seen) rest = (rest, []) := by
        refine ih (a.name :: seen) ?_ hn.2
        intro b hb
        simp only [List.mem_cons]
        rintro (hba | hbseen)
        · exact hn.1 (List.mem_map.mpr ⟨b, hb, hba⟩)
        · exact hseen b (List.mem_cons_of_mem a hb) hbseen
      simp [dedupAppenders, ha, hrest]

theorem dedupLoggers_nodup (seen : List String) (l : List ConfigLogger)
    (hseen : ∀ a ∈ l, a.name ∉ seen)
    (hnodup : (l.map ConfigLogger.name).Nodup) :
    dedupLoggers seen l = (l, []) := by
  induction l generalizing seen with
  | nil => rfl
  | cons a rest ih =>
      have ha : a.name ∉ seen := hseen a (by simp)
      have hn : a.name ∉ rest.map ConfigLogger.name ∧
          (rest.map ConfigLogger.name).Nodup := by
        simpa [List.nodup_cons] using hnodup
      have hrest : dedupLoggers (a.name :: seen) rest = (rest, []) := by
        refine ih (a.name :: seen) ?_ hn.2
        intro b hb
        simp only [List.mem_cons]
        rintro (hba | hbseen)
        · exact hn.1 (List.mem_map.mpr ⟨b, hb, hba⟩)
        · exact hseen b (List.mem_cons_of_mem a hb) hbseen
      simp [dedupLoggers, ha, hrest]

theorem mem_dedupAppenders {A F : Type} (seen : List String)
    (l : List (ConfigAppender A F)) (b : ConfigAppender A F)
    (hb : b ∈ (dedupAppenders seen l).1) : b ∈ l := by
  induction l generalizing seen with
  | nil => simp [dedupAppenders] at hb
  | cons a rest ih =>
      by_cases ha : a.name ∈ seen
      · simp only [dedupAppenders, if_pos ha] at hb
        exact List.mem_cons_of_mem a (ih seen hb)
      · simp only [dedupAppenders, if_neg ha, List.mem_cons] at hb
        rcases hb with hb | hb
        · exact hb ▸ List.mem_cons_self a rest
        · exact List.mem_cons_of_mem a (ih (a.name :: seen) hb)

theorem appenderOk_name {A F : Type} (ds : Deserializers A F)
    (entry : String × RawAppender) (c : ConfigAppender A F)
    (hc : appenderOk ds entry = some c) : c.name = entry.1 := by
  unfold appenderOk at hc
  cases h : ds.deserializeAppender entry.2.kind entry.2.config with
  | ok obj => rw [h] at hc; cases hc; rfl
  | error e => rw [h] at hc; cases hc

theorem names_filterMap_sublist {A F : Type} (ds : Deserializers A F)
    (l : List (String × RawAppender)) :
    ((l.filterMap (appenderOk ds)).map ConfigAppender.name).Sublist
      (l.map Prod.fst) := by
  induction l with
  | nil => simp
  | cons entry rest ih =>
      cases hc : appenderOk ds entry with
      | none => simpa [List.filterMap_cons, hc] using ih.cons entry.1
      | some c =>
          simpa [List.filterMap_cons, hc, appenderOk_name ds entry c hc] using
            ih.cons₂ entry.1

theorem flatMap_filterErrs_nil {A F : Type} (ds : Deserializers A F)
    (l : List FilterConfig)
    (hok : ∀ fc ∈ l, (ds.deserializeFilter fc.kind fc.config).isOk) :
    l.flatMap (filterErrs ds) = [] := by
  induction l with
  | nil => simp
  | cons fc rest ih =>
      have h1 := hok fc (by simp)
      obtain ⟨y, hy⟩ : ∃ y, ds.deserializeFilter fc.kind fc.config = Except.ok y := by
        cases h : ds.deserializeFilter fc.kind fc.config with
        | ok y => exact ⟨y, rfl⟩
        | error e => rw [h] at h1; simp [Except.isOk, Except.toBool] at h1
      simp only [List.flatMap_cons]
      rw [ih fun x hx => hok x (List.mem_cons_of_mem fc hx)]
      simp [filterErrs, hy]

theorem length_filterMap_filterOk {A F : Type} (ds : Deserializers A F)
    (l : List FilterConfig)
    (hok : ∀ fc ∈ l, (ds.deserializeFilter fc.kind fc.config).isOk) :
    (l.filterMap (filterOk ds)).length = l.length := by
  induction l with
  | nil => simp
  | cons fc rest ih =>
      have h1 := hok fc (by simp)
      obtain ⟨y, hy⟩ : ∃ y, ds.deserializeFilter fc.kind fc.config = Except.ok y := by
        cases h : ds.deserializeFilter fc.kind fc.config with
        | ok y => exact ⟨y, rfl⟩
        | error e => rw [h] at h1; simp [Except.isOk, Except.toBool] at h1
      simp only [List.filterMap_cons, filterOk, hy, Except.toOption]
      rw [List.length_cons, ih fun x hx => hok x (List.mem_cons_of_mem fc hx)]
      simp

/-! ### Demo components used by the concrete witnesses -/

/-- A concrete typed deserializer for the witnesses: builds the component `1`. -/
def demoDeser1 : Deserialize Nat :=
  { Cfg := Unit, deserialize_into := fun _ => Except.ok (),
    build := fun _ => Except.ok 1 }

/-- A concrete typed deserializer for the witnesses: builds the component `2`. -/
def demoDeser2 : Deserialize Nat :=
  { Cfg := Unit, deserialize_into := fun _ => Except.ok (),
    build := fun _ => Except.ok 2 }

/-- The raw tree of an empty document. -/
def emptyRawConfig : RawConfig :=
  { refresh_rate := none, root := none, appenders := [], loggers := [] }

/-- Concrete external format parsers for the witnesses. -/
def demoParsers : FormatParsers Unit :=
  { yaml := fun _ => Except.ok emptyRawConfig,
    json := fun _ => Except.error "json parse failure",
    tomlParse := fun _ => (none, ["toml parse failure"]),
    tomlDecode := fun _ => Except.ok emptyRawConfig }

/-- A concrete typed filter deserializer for the witnesses: builds `7`. -/
def demoFilterDeser : Deserialize Nat :=
  { Cfg := Unit, deserialize_into := fun _ => Except.ok (),
    build := fun _ => Except.ok 7 }

/-- A concrete registry for the witnesses: `"console"` appenders and
`"threshold"` filters. -/
def demoDs : Deserializers Nat Nat :=
  { appenders := FamilyMap.insert [] "console" demoDeser1,
    filters := FamilyMap.insert [] "threshold" demoFilterDeser }

/-- A raw tree declaring one appender of unregistered kind `bogus`. -/
def demoRawBogus : RawConfig :=
  { refresh_rate := none, root := none,
    appenders := [("a", { kind := "bogus", config := Value.unit, filters := [] })],
    loggers := [] }

/-- A raw appender entry with no filters, of registered kind `console`. -/
def demoConsoleApp : RawAppender :=
  { kind := "console", config := Value.unit, filters := [] }

/-- Two declared appenders `a`, `b` in one order. -/
def demoRawAB : RawConfig :=
  { refresh_rate := none, root := none,
    appenders := [("a", demoConsoleApp), ("b", demoConsoleApp)], loggers := [] }

/-- The same two declared appenders in the other order. -/
def demoRawBA : RawConfig :=
  { refresh_rate := none, root := none,
    appenders := [("b", demoConsoleApp), ("a", demoConsoleApp)], loggers := [] }

/-- A raw appender with three filters whose middle kind is unregistered. -/
def demoRawApp : RawAppender :=
  { kind := "console", config := Value.unit,
    filters := [{ kind := "threshold", config := Value.unit },
                { kind := "bogus", config := Value.unit },
                { kind := "threshold", config := Value.unit }] }

/-! ### The claims -/

/-- **C4.** `Deserializers::deserialize` fails with the fixed
"no … registered" message exactly in the unregistered case; for a registered
deserializer the generic value is first converted to the typed configuration
(a conversion failure is returned as-is, without consulting the build
function), and otherwise the build result is returned unchanged. -/
theorem claim_C4_registry_deserialize {τ : Type} (familyName : String)
    (m : FamilyMap τ) (kind : String) (v : Value) :
    (FamilyMap.lookup m kind = none →
      FamilyMap.deserialize familyName m kind v
        = Except.error ("no " ++ familyName ++ " deserializer for kind `"
            ++ kind ++ "` registered"))
    ∧ (∀ f, FamilyMap.lookup m kind = some f →
        FamilyMap.deserialize familyName m kind v = f v)
    ∧ (∀ d : Deserialize τ,
        FamilyMap.lookup m kind = some (DeserializeEraser.deserialize d) →
          (∀ e, d.deserialize_into v = Except.error e →
              FamilyMap.deserialize familyName m kind v = Except.error e)
          ∧ (∀ c, d.deserialize_into v = Except.ok c →
              FamilyMap.deserialize familyName m kind v = d.build c))
    ∧ (∀ (C : Type) (conv : Value → Except String C)
        (b1 b2 : C → Except String τ) (e : String), conv v = Except.error e →
          DeserializeEraser.deserialize ⟨C, conv, b1⟩ v
            = DeserializeEraser.deserialize ⟨C, conv, b2⟩ v) := by
  refine ⟨?_, ?_, ?_, ?_⟩
  · intro h
    simp [FamilyMap.deserialize, h]
  · intro f h
    simp [FamilyMap.deserialize, h]
  · intro d h
    constructor
    · intro e he
      simp [FamilyMap.deserialize, h, DeserializeEraser.deserialize, he]
    · intro c hc
      simp [FamilyMap.deserialize, h, DeserializeEraser.deserialize, hc]
  · intro C conv b1 b2 e he
    simp [DeserializeEraser.deserialize, he]

/-- Witness for C4: on an empty registry the lookup-miss error message is
produced verbatim. -/
theorem claim_C4_witness :
    FamilyMap.deserialize "appender" ([] : FamilyMap Nat) "console" Value.unit
      = Except.error "no appender deserializer for kind `console` registered" :=
  (claim_C4_registry_deserialize "appender" [] "console" Value.unit).1 rfl

/-- **C5.** Registering the same (family, kind) twice silently replaces the
earlier registration: subsequent `deserialize` calls use only the later one,
the later one is what lookup finds, and the kind's bindings in the resulting
table consist of exactly the later registration. -/
theorem claim_C5_insert_last_wins {τ : Type} (familyName : String)
    (m : FamilyMap τ) (kind : String) (d1 d2 : Deserialize τ) (v : Value) :
    FamilyMap.deserialize familyName ((m.insert kind d1).insert kind d2) kind v
      = DeserializeEraser.deserialize d2 v
    ∧ FamilyMap.lookup ((m.insert kind d1).insert kind d2) kind
      = some (DeserializeEraser.deserialize d2)
    ∧ ((m.insert kind d1).insert kind d2).filter (fun p => p.1 = kind)
      = [(kind, DeserializeEraser.deserialize d2)] := by
  refine ⟨?_, ?_, ?_⟩
  · simp [FamilyMap.deserialize, FamilyMap.insert, FamilyMap.lookup]
  · simp [FamilyMap.insert, FamilyMap.lookup]
  · simp [FamilyMap.insert, List.filter_filter]

/-- Witness for C5: after two registrations of `"console"`, deserialization
builds with the second deserializer. -/
theorem claim_C5_witness :
    FamilyMap.deserialize "appender"
        ((FamilyMap.insert [] "console" demoDeser1).insert "console" demoDeser2)
        "console" Value.unit
      = Except.ok 2 := by
  have h :=
    (claim_C5_insert_last_wins "appender" [] "console" demoDeser1 demoDeser2
      Value.unit).1
  rw [h]
  rfl

/-- **C8.** The logger loop of `Config::parse` builds each declared logger
entry from its raw descriptor: level and appender-name list are taken as-is,
and the additivity flag defaults to `true` when the descriptor omits it and
is the given boolean when present (`Option.getD`). -/
theorem claim_C8_logger_defaults {A F : Type} (cb : ConfigBuilder A F)
    (rls : List (String × RawLogger)) :
    (processLoggers cb rls).loggers = cb.loggers ++ rls.map (fun entry =>
      { name := entry.1, level := entry.2.level, appenders := entry.2.appenders,
        additive := entry.2.additive.getD true }) := by
  rw [processLoggers_eq]
  rfl

/-- Witness for C8: one logger without the flag gets `additive = true`, one
with `additive: false` keeps `false`. -/
theorem claim_C8_witness :
    (processLoggers (Config.builder (A := Nat) (F := Nat))
        [("x", { level := some LogLevelFilter.warn, appenders := ["a"],
                 additive := none }),
         ("y", { level := none, appenders := [], additive := some false })]).loggers
      = [{ name := "x", level := some LogLevelFilter.warn, appenders := ["a"],
           additive := true },
         { name := "y", level := none, appenders := [], additive := false }] := by
  rw [claim_C8_logger_defaults]
  rfl

/-- **C9.** The threshold filter returns `Reject` exactly when the record's
level is numerically greater (less severe) than the threshold, returns
`Neutral` otherwise, never returns `Accept`; and the deserializer's build
step always succeeds on a well-typed configuration. -/
theorem claim_C9_threshold_filter {A F : Type} (ds : Deserializers A F)
    (L : LogLevelFilter) (r : LogRecord) (tds : ThresholdFilterDeserializer)
    (cfg : ThresholdFilterConfig) :
    ((ThresholdFilter.new L).filter r = Response.reject ↔ L.toNat < r.level.toNat)
    ∧ ((ThresholdFilter.new L).filter r = Response.neutral ↔
        ¬ L.toNat < r.level.toNat)
    ∧ (ThresholdFilter.new L).filter r ≠ Response.accept
    ∧ tds.deserialize cfg ds = Except.ok (ThresholdFilter.new cfg.level) := by
  unfold ThresholdFilter.filter ThresholdFilter.new LogLevel.gtFilter
    ThresholdFilterDeserializer.deserialize
  by_cases h : L.toNat < r.level.toNat <;> simp [h, ThresholdFilter.new]

/-- Witness for C9: a `warn` threshold rejects an `info` record. -/
theorem claim_C9_witness :
    (ThresholdFilter.new LogLevelFilter.warn).filter
        { level := LogLevel.info } = Response.reject :=
  (claim_C9_threshold_filter (Deserializers.new (A := Nat) (F := Nat))
    LogLevelFilter.warn { level := LogLevel.info } {}
    { level := LogLevelFilter.warn }).1.mpr (by decide)

/-- **C10.** In the TOML branch of the internal parse function, when the
parser yields no table the code pops and unwraps the last recorded error:
the call panics exactly when the parse failed with an empty error vector,
and otherwise returns `Err` of the last recorded error. -/
theorem claim_C10_toml_unwrap {T : Type} (fp : FormatParsers T) (text : String) :
    (parseRawTree fp Format.toml text = none ↔
      (fp.tomlParse text).1 = none ∧ (fp.tomlParse text).2 = [])
    ∧ (∀ es e, (fp.tomlParse text).1 = none →
        (fp.tomlParse text).2 = es ++ [e] →
          parseRawTree fp Format.toml text = some (Except.error e)) := by
  constructor
  · unfold parseRawTree
    cases ht : (fp.tomlParse text).1 with
    | some t => simp [ht]
    | none =>
        cases he : (fp.tomlParse text).2.getLast? with
        | some e =>
            have : (fp.tomlParse text).2 ≠ [] := by
              intro hnil
              rw [hnil] at he
              simp at he
            simp [ht, he, this]
        | none =>
            have := List.getLast?_eq_none_iff.mp he
            simp [ht, he, this]
  · intro es e ht he
    unfold parseRawTree
    rw [ht, he, List.getLast?_concat]

/-- Witness for C10: a TOML parser reporting no table and one error makes the
internal parse return that error. -/
theorem claim_C10_witness :
    parseRawTree demoParsers Format.toml "x"
      = some (Except.error "toml parse failure") :=
  (claim_C10_toml_unwrap demoParsers "x").2 [] "toml parse failure" rfl rfl

/-- **C1.** `Config::parse` returns `Ok` whenever the initial parse of the
text into the raw config tree succeeds: the assembly of the result is a total
function of the raw tree, and component deserialization failures and
config-validation failures surface only in the returned error list. -/
theorem claim_C1_parse_total {A F T : Type} (fp : FormatParsers T)
    (format : Format) (text : String) (ds : Deserializers A F) (raw : RawConfig)
    (h : parseRawTree fp format text = some (Except.ok raw)) :
    FileConfig.parse text format ds fp
      = some (Except.ok (FileConfig.assemble ds raw))
    ∧ (FileConfig.assemble ds raw).errors
      = raw.appenders.flatMap (appenderErrs ds)
        ++ ((dedupAppenders [] (raw.appenders.filterMap (appenderOk ds))).2
            ++ (dedupLoggers [] (raw.loggers.map buildLoggerEntry)).2).map
              FileError.Config := by
  constructor
  · unfold FileConfig.parse
    rw [h]
  · rw [assemble_eq]

/-- Witness for C1: a succeeding raw parse makes `Config::parse` return `Ok`. -/
theorem claim_C1_witness :
    FileConfig.parse "x" Format.yaml (Deserializers.new (A := Nat) (F := Nat))
        demoParsers
      = some (Except.ok (FileConfig.assemble Deserializers.new emptyRawConfig)) :=
  (claim_C1_parse_total demoParsers Format.yaml "x" Deserializers.new
    emptyRawConfig rfl).1

/-- **C2.** A declared appender whose kind fails to deserialize contributes
exactly one `Deserialization` error, is absent from the assembled
configuration, and every other declared appender is still processed. -/
theorem claim_C2_appender_failure {A F : Type} (ds : Deserializers A F)
    (raw : RawConfig) (pre post : List (String × RawAppender)) (name : String)
    (a : RawAppender) (e : String)
    (hra : raw.appenders = pre ++ (name, a) :: post)
    (hfail : ds.deserializeAppender a.kind a.config = Except.error e)
    (hname : name ∉ (pre ++ post).map Prod.fst) :
    (processAppenders ds (Config.builder, []) raw.appenders).2
      = pre.flatMap (appenderErrs ds)
        ++ FileError.Deserialization e :: post.flatMap (appenderErrs ds)
    ∧ (processAppenders ds (Config.builder, []) raw.appenders).1.appenders
      = (pre ++ post).filterMap (appenderOk ds)
    ∧ name ∉ ((FileConfig.assemble ds raw).config.appenders.map
        ConfigAppender.name) := by
  have hA : appenderErrs ds (name, a) = [FileError.Deserialization e] := by
    simp [appenderErrs, hfail]
  have hO : appenderOk ds (name, a) = none := by
    simp [appenderOk, hfail]
  refine ⟨?_, ?_, ?_⟩
  · rw [hra, processAppenders_eq]
    simp [List.flatMap_append, List.flatMap_cons, hA]
  · rw [hra, processAppenders_eq]
    simp [List.filterMap_append, List.filterMap_cons, hO, Config.builder]
  · rw [assemble_eq]
    intro hmem
    simp only [List.mem_map] at hmem
    obtain ⟨b, hb, hbname⟩ := hmem
    have hb2 := mem_dedupAppenders _ _ _ hb
    obtain ⟨entry, hentry, hsome⟩ := List.mem_filterMap.mp hb2
    have hn := appenderOk_name ds entry b hsome
    have hfst : entry.1 = name := hn.symm.trans hbname
    rw [hra] at hentry
    rcases List.mem_append.mp hentry with h1 | h12
    · exact hname (List.mem_map.mpr ⟨entry, List.mem_append_left _ h1, hfst⟩)
    · rcases List.mem_cons.mp h12 with h2 | h3
      · rw [h2] at hsome
        rw [hO] at hsome
        cases hsome
      · exact hname (List.mem_map.mpr ⟨entry, List.mem_append_right _ h3, hfst⟩)

/-- Witness for C2: one appender of unregistered kind `bogus` yields exactly
one `Deserialization` error. -/
theorem claim_C2_witness :
    (processAppenders (Deserializers.new (A := Nat) (F := Nat))
        (Config.builder, []) demoRawBogus.appenders).2
      = [FileError.Deserialization
          "no appender deserializer for kind `bogus` registered"]
    ∧ "a" ∉ ((FileConfig.assemble (Deserializers.new (A := Nat) (F := Nat))
        demoRawBogus).config.appenders.map ConfigAppender.name) := by
  have h := claim_C2_appender_failure (Deserializers.new (A := Nat) (F := Nat))
    demoRawBogus [] [] "a" { kind := "bogus", config := Value.unit, filters := [] }
    "no appender deserializer for kind `bogus` registered" rfl rfl (by simp)
  exact ⟨by simpa using h.1, h.2.2⟩

/-- **C3.** A successfully built appender with one failing filter among
otherwise succeeding ones is still registered, carries the remaining N−1
filters in the document's relative order, and the failing filter contributes
its `Deserialization` error. -/
theorem claim_C3_filter_failure {A F : Type} (ds : Deserializers A F)
    (name : String) (a : RawAppender) (obj : A) (pre post : List FilterConfig)
    (fc : FilterConfig) (e : String)
    (hobj : ds.deserializeAppender a.kind a.config = Except.ok obj)
    (hsplit : a.filters = pre ++ fc :: post)
    (hfail : ds.deserializeFilter fc.kind fc.config = Except.error e)
    (hok : ∀ x ∈ pre ++ post, (ds.deserializeFilter x.kind x.config).isOk) :
    (processAppenders ds (Config.builder, []) [(name, a)]).1.appenders
      = [{ name := name, appender := obj,
           filters := pre.filterMap (filterOk ds)
             ++ post.filterMap (filterOk ds) }]
    ∧ (pre.filterMap (filterOk ds) ++ post.filterMap (filterOk ds)).length + 1
      = a.filters.length
    ∧ (processAppenders ds (Config.builder, []) [(name, a)]).2
      = [FileError.Deserialization e] := by
  have hokpre : ∀ x ∈ pre, (ds.deserializeFilter x.kind x.config).isOk :=
    fun x hx => hok x (List.mem_append_left _ hx)
  have hokpost : ∀ x ∈ post, (ds.deserializeFilter x.kind x.config).isOk :=
    fun x hx => hok x (List.mem_append_right _ hx)
  have hfO : filterOk ds fc = none := by
    simp [filterOk, hfail, Except.toOption]
  have hfE : filterErrs ds fc = [FileError.Deserialization e] := by
    simp [filterErrs, hfail]
  refine ⟨?_, ?_, ?_⟩
  · rw [processAppenders_eq]
    simp [List.filterMap_cons, appenderOk, hobj, hsplit, List.filterMap_append,
      hfO, Config.builder]
  · rw [hsplit]
    rw [List.length_append, length_filterMap_filterOk ds pre hokpre,
      length_filterMap_filterOk ds post hokpost, List.length_append,
      List.length_cons]
    omega
  · rw [processAppenders_eq]
    simp [List.flatMap_cons, appenderErrs, hobj, hsplit, List.flatMap_append,
      flatMap_filterErrs_nil ds pre hokpre,
      flatMap_filterErrs_nil ds post hokpost, hfE]

/-- Witness for C3: an appender with three filters whose middle kind is
unregistered keeps the two others and records one error. -/
theorem claim_C3_witness :
    (processAppenders demoDs (Config.builder, []) [("console", demoRawApp)]).2
      = [FileError.Deserialization
          "no filter deserializer for kind `bogus` registered"]
    ∧ (processAppenders demoDs (Config.builder, [])
        [("console", demoRawApp)]).1.appenders
      = [{ name := "console", appender := 1, filters := [7, 7] }] := by
  have h := claim_C3_filter_failure demoDs "console" demoRawApp 1
    [{ kind := "threshold", config := Value.unit }]
    [{ kind := "threshold", config := Value.unit }]
    { kind := "bogus", config := Value.unit }
    "no filter deserializer for kind `bogus` registered"
    rfl rfl rfl (by decide)
  refine ⟨h.2.2, ?_⟩
  rw [h.1]
  rfl

/-- **C6.** A well-formed empty document parses with an empty error list and
the default root (level `Debug`, no appenders); in general, whenever the raw
tree supplies no root, the assembled root is that default. -/
theorem claim_C6_empty_document {A F T : Type} (fp : FormatParsers T)
    (ds : Deserializers A F)
    (hparse : fp.yaml "{}" = Except.ok emptyRawConfig) :
    FileConfig.parse "{}" Format.yaml ds fp
      = some (Except.ok
          { refresh_rate := none,
            config := { root := { level := LogLevelFilter.debug, appenders := [] },
                        appenders := [], loggers := [] },
            errors := [] })
    ∧ (∀ raw : RawConfig, raw.root = none →
        (FileConfig.assemble ds raw).config.root
          = { level := LogLevelFilter.debug, appenders := [] }) := by
  constructor
  · unfold FileConfig.parse parseRawTree
    rw [hparse]
    rfl
  · intro raw hroot
    rw [assemble_eq]
    simp [rootOf, hroot]

/-- Witness for C6: the empty document against an empty registry. -/
theorem claim_C6_witness :
    FileConfig.parse "{}" Format.yaml (Deserializers.new (A := Nat) (F := Nat))
        demoParsers
      = some (Except.ok
          { refresh_rate := none,
            config := { root := { level := LogLevelFilter.debug, appenders := [] },
                        appenders := [], loggers := [] },
            errors := [] }) :=
  (claim_C6_empty_document demoParsers Deserializers.new rfl).1

/-- **C7.** Assembly is deterministic up to map-iteration order: permuting
the raw appender and logger maps (whose keys are distinct) yields the same
root and refresh rate, permuted-but-equal appender, logger and error lists,
and within one appender the filter order of the document is always
preserved. -/
theorem claim_C7_map_order {A F : Type} (ds : Deserializers A F)
    (raw1 raw2 : RawConfig)
    (happ : raw1.appenders.Perm raw2.appenders)
    (hlog : raw1.loggers.Perm raw2.loggers)
    (hroot : raw1.root = raw2.root)
    (hrate : raw1.refresh_rate = raw2.refresh_rate)
    (hna : (raw1.appenders.map Prod.fst).Nodup)
    (hnl : (raw1.loggers.map Prod.fst).Nodup) :
    (FileConfig.assemble ds raw1).refresh_rate
      = (FileConfig.assemble ds raw2).refresh_rate
    ∧ (FileConfig.assemble ds raw1).config.root
      = (FileConfig.assemble ds raw2).config.root
    ∧ (FileConfig.assemble ds raw1).config.appenders.Perm
        (FileConfig.assemble ds raw2).config.appenders
    ∧ (FileConfig.assemble ds raw1).config.loggers.Perm
        (FileConfig.assemble ds raw2).config.loggers
    ∧ (FileConfig.assemble ds raw1).errors.Perm
        (FileConfig.assemble ds raw2).errors
    ∧ (∀ (entry : String × RawAppender) (c : ConfigAppender A F),
        appenderOk ds entry = some c →
          c.filters = entry.2.filters.filterMap (filterOk ds)) := by
  have hna2 : (raw2.appenders.map Prod.fst).Nodup :=
    ((happ.map Prod.fst).nodup_iff).mp hna
  have hnl2 : (raw2.loggers.map Prod.fst).Nodup :=
    ((hlog.map Prod.fst).nodup_iff).mp hnl
  have hmapname : ∀ l : List (String × RawLogger),
      (l.map buildLoggerEntry).map ConfigLogger.name = l.map Prod.fst := by
    intro l
    rw [List.map_map]
    rfl
  have hd1 : dedupAppenders [] (raw1.appenders.filterMap (appenderOk ds))
      = (raw1.appenders.filterMap (appenderOk ds), []) :=
    dedupAppenders_nodup [] _ (by simp)
      (hna.sublist (names_filterMap_sublist ds raw1.appenders))
  have hd2 : dedupAppenders [] (raw2.appenders.filterMap (appenderOk ds))
      = (raw2.appenders.filterMap (appenderOk ds), []) :=
    dedupAppenders_nodup [] _ (by simp)
      (hna2.sublist (names_filterMap_sublist ds raw2.appenders))
  have hdl1 : dedupLoggers [] (raw1.loggers.map buildLoggerEntry)
      = (raw1.loggers.map buildLoggerEntry, []) :=
    dedupLoggers_nodup [] _ (by simp) (by rw [hmapname]; exact hnl)
  have hdl2 : dedupLoggers [] (raw2.loggers.map buildLoggerEntry)
      = (raw2.loggers.map buildLoggerEntry, []) :=
    dedupLoggers_nodup [] _ (by simp) (by rw [hmapname]; exact hnl2)
  refine ⟨?_, ?_, ?_, ?_, ?_, ?_⟩
  · simp [assemble_eq, hrate]
  · simp [assemble_eq, hroot]
  · simp only [assemble_eq, hd1, hd2]
    exact happ.filterMap (appenderOk ds)
  · simp only [assemble_eq, hdl1, hdl2]
    exact hlog.map buildLoggerEntry
  · simp only [assemble_eq, hd1, hd2, hdl1, hdl2, List.nil_append,
      List.map_nil, List.append_nil]
    exact happ.flatMap_right (appenderErrs ds)
  · intro entry c hc
    unfold appenderOk at hc
    cases h : ds.deserializeAppender entry.2.kind entry.2.config with
    | ok obj =>
        rw [h] at hc
        cases hc
        rfl
    | error e =>
        rw [h] at hc
        cases hc

/-- Witness for C7: swapping two distinct appender declarations permutes the
assembled appender list. -/
theorem claim_C7_witness :
    (FileConfig.assemble demoDs demoRawAB).config.appenders.Perm
      (FileConfig.assemble demoDs demoRawBA).config.appenders := by
  have h := claim_C7_map_order demoDs demoRawAB demoRawBA
    (List.Perm.swap _ _ _) (List.Perm.refl _) rfl rfl (by decide) (by decide)
  exact h.2.2.1
end Log4rs
